import Mathlib

/-!
Verification of the query-execution and response-decoding pipeline of a
Firebolt database client SDK (Rust).  The Rust source is shallowly embedded:
pure functions become Lean functions, `&mut self` methods become explicit
state passing, fallible code returns `Except`, and the external collaborators
(HTTP transport, OAuth authenticator, and the `serde_json` / `url` / `regex`
crates) are modelled as explicit oracles or executable Lean functions.
-/

namespace Firebolt

/-- Embeds `FireboltError` from `src/error.rs`: the error taxonomy of the
client, each variant carrying a message string. -/
inductive FireboltError where
  | Authentication (msg : String)
  | Network (msg : String)
  | Query (msg : String)
  | Serialization (msg : String)
  | Configuration (msg : String)
  | HeaderParsing (msg : String)
  | Unknown (msg : String)
deriving DecidableEq, Repr

/-- Embeds `Type` from `src/types.rs`: the closed set of wire column types.
(Named `FbType` because `Type` is reserved in Lean.) -/
inductive FbType where
  | Int
  | Long
  | Float
  | Double
  | Decimal
  | Text
  | Date
  | Timestamp
  | TimestampTZ
  | Boolean
  | Array
  | Struct
  | Geography
  | Bytes
deriving DecidableEq, Repr

/-- The `{column_type:?}` Debug rendering used in conversion error messages
in `src/types.rs`. -/
def fbTypeDebug : FbType → String
  | .Int => "Int"
  | .Long => "Long"
  | .Float => "Float"
  | .Double => "Double"
  | .Decimal => "Decimal"
  | .Text => "Text"
  | .Date => "Date"
  | .Timestamp => "Timestamp"
  | .TimestampTZ => "TimestampTZ"
  | .Boolean => "Boolean"
  | .Array => "Array"
  | .Struct => "Struct"
  | .Geography => "Geography"
  | .Bytes => "Bytes"

/-- Embeds `Column` from `src/types.rs`. -/
structure Column where
  name : String
  type : FbType
  precision : Option Int
  scale : Option Int
  is_nullable : Bool
deriving DecidableEq, Repr

/-- Embeds `ColumnRef` from `src/types.rs`: dual addressing of a column by
zero-based ordinal or by name. -/
inductive ColumnRef where
  | Index (i : Nat)
  | Name (name : String)
deriving DecidableEq, Repr

/-- Models `serde_json::Value`: the dynamically-typed JSON document consumed
by the decoder.  A number carries `asI64`: `some n` when the literal is an
integer representable as an `i64` (so `Value::as_i64` yields it), `none` for
floating-point or out-of-i64-range numbers (where `as_i64` yields `None`). -/
inductive Json where
  | null
  | bool (b : Bool)
  | num (asI64 : Option Int)
  | str (s : String)
  | arr (elems : List Json)
  | obj (fields : List (String × Json))

/-- Models `Value::is_null`. -/
def Json.isNull : Json → Bool
  | .null => true
  | _ => false

/-- Models `Value::as_array`. -/
def Json.asArray : Json → Option (List Json)
  | .arr xs => some xs
  | _ => none

/-- Models `Value::as_str`. -/
def Json.asStr : Json → Option String
  | .str s => some s
  | _ => none

/-- Models `Value::as_i64`. -/
def Json.asI64 : Json → Option Int
  | .num v => v
  | _ => none

/-- Models `Value::as_bool`. -/
def Json.asBool : Json → Option Bool
  | .bool b => some b
  | _ => none

/-- Field lookup in an object's field list (first match; objects built by the
document parser below carry at most one entry per key, matching the map
semantics of `serde_json`). -/
def lookupField : List (String × Json) → String → Option Json
  | [], _ => none
  | (k, v) :: rest, key => if k = key then some v else lookupField rest key

/-- Models `Value::get(key)`: `None` on non-objects. -/
def Json.getField : Json → String → Option Json
  | .obj fields, key => lookupField fields key
  | _, _ => none

/-! ### Session parameter map

`FireboltClient::_parameters` is a `HashMap<String, String>`; it is modelled
as an association list with upsert insertion, so that `getParam` agrees with
`HashMap::get`, `insertParam` with `HashMap::insert`, and `removeParam` with
`HashMap::remove`. -/

abbrev Params := List (String × String)

/-- Models `HashMap::get`. -/
def getParam : Params → String → Option String
  | [], _ => none
  | (k, v) :: rest, key => if k = key then some v else getParam rest key

/-- Models `HashMap::insert` (upsert). -/
def insertParam : Params → String → String → Params
  | [], key, val => [(key, val)]
  | (k, v) :: rest, key, val =>
      if k = key then (key, val) :: rest else (k, v) :: insertParam rest key val

/-- Models `HashMap::remove`. -/
def removeParam : Params → String → Params
  | [], _ => []
  | (k, v) :: rest, key => if k = key then rest else (k, v) :: removeParam rest key

/-! ### Character-level string primitives

Models of the `str` methods the client uses, written over `List Char` so
they compute by kernel reduction. -/

/-- Models `str::split(sep)` on the character list: `"a,,b"` gives
`["a", "", "b"]` and `""` gives `[""]`. -/
def splitCharList (sep : Char) : List Char → List (List Char)
  | [] => [[]]
  | c :: cs =>
    if c = sep then [] :: splitCharList sep cs
    else
      match splitCharList sep cs with
      | [] => [[c]]
      | seg :: rest => (c :: seg) :: rest

/-- String-level wrapper of `splitCharList`. -/
def splitChar (sep : Char) (s : String) : List String :=
  (splitCharList sep s.data).map fun l => ⟨l⟩

/-- Models `str::trim`: drop whitespace from both ends. -/
def trimChars (cs : List Char) : List Char :=
  ((cs.dropWhile Char.isWhitespace).reverse.dropWhile Char.isWhitespace).reverse

/-- String-level wrapper of `trimChars`. -/
def rustTrim (s : String) : String := ⟨trimChars s.data⟩

/-! ### The wire-type grammar parser (`parse_type`, `src/parser.rs`)

The Rust code runs the unanchored regex `decimal\((\d+),\s*(\d+)\)` over the
descriptor (after stripping an optional `null::`), *before* checking for the
`array` text.  The regex search is modelled exactly: scan for the leftmost
position at which the literal `decimal(`, a nonempty digit run, `,`, a
whitespace run, a nonempty digit run and `)` match.  Because the digit and
whitespace classes are disjoint from the delimiters that follow them, the
greedy backtracking regex engine and this maximal-munch scan find exactly the
same matches. -/

/-- `startsWithLit lit cs`: `cs` starts with the literal character list
`lit` (models `str::starts_with`). -/
def startsWithLit : List Char → List Char → Bool
  | [], _ => true
  | _ :: _, [] => false
  | l :: ls, c :: cs => c = l && startsWithLit ls cs

/-- Drop a literal from the front of a character list, or fail. -/
def dropLiteral : List Char → List Char → Option (List Char)
  | [], cs => some cs
  | _ :: _, [] => none
  | l :: ls, c :: cs => if c = l then dropLiteral ls cs else none

/-- Attempt the `decimal\((\d+),\s*(\d+)\)` pattern at the head of the list,
returning the two captured digit runs. -/
def matchDecimalAt (cs : List Char) : Option (List Char × List Char) :=
  match dropLiteral "decimal(".data cs with
  | none => none
  | some cs1 =>
    let d1 := cs1.takeWhile Char.isDigit
    if d1 = [] then none
    else
      match cs1.dropWhile Char.isDigit with
      | ',' :: cs2 =>
        let cs3 := cs2.dropWhile Char.isWhitespace
        let d2 := cs3.takeWhile Char.isDigit
        if d2 = [] then none
        else
          match cs3.dropWhile Char.isDigit with
          | ')' :: _ => some (d1, d2)
          | _ => none
      | _ => none

/-- Leftmost unanchored search of the decimal pattern (models
`Regex::captures`). -/
def findDecimalMatch : List Char → Option (List Char × List Char)
  | [] => none
  | c :: cs =>
    match matchDecimalAt (c :: cs) with
    | some r => some r
    | none => findDecimalMatch cs

/-- Numeric value of a digit run. -/
def digitsToNat (ds : List Char) : Nat :=
  ds.foldl (fun acc c => 10 * acc + (c.toNat - 48)) 0

/-- Models `str::parse::<i32>()` on a nonempty ASCII digit run: fails
(overflow) above `i32::MAX`. -/
def parseI32Digits (ds : List Char) : Option Int :=
  if digitsToNat ds ≤ 2147483647 then some (digitsToNat ds) else none

/-- Whether the descriptor starts with the `null::` nullability marker. -/
def startsWithNull (cs : List Char) : Bool :=
  startsWithLit "null::".data cs

/-- The descriptor after the optional `null::` marker (`&type_str[6..]`). -/
def cleanChars (s : String) : List Char :=
  if startsWithNull s.data then s.data.drop 6 else s.data

/-- The nullability flag read off the descriptor. -/
def isNullableOf (s : String) : Bool := startsWithNull s.data

/-- The body of `parse_type` after the `null::` strip, without the
nullability flag (the source threads the flag unchanged into every success;
it is re-inserted by `parseTypeCore`): decimal regex search first, then the
`array` text check, then the verbatim alias table with the `struct`
fallback. -/
def parseTypeBase (clean : List Char) :
    Except FireboltError (FbType × Option Int × Option Int) :=
  match findDecimalMatch clean with
  | some (d1, d2) =>
    match parseI32Digits d1 with
    | none => .error (.Query "Invalid decimal precision")
    | some precision =>
      match parseI32Digits d2 with
      | none => .error (.Query "Invalid decimal scale")
      | some scale => .ok (.Decimal, some precision, some scale)
  | none =>
    if startsWithLit "array".data clean then .ok (.Array, none, none)
    else
      let t : String := ⟨clean⟩
      if t = "int" then .ok (.Int, none, none)
      else if t = "bigint" ∨ t = "long" then .ok (.Long, none, none)
      else if t = "float4" ∨ t = "float" then .ok (.Float, none, none)
      else if t = "double" ∨ t = "float8" then .ok (.Double, none, none)
      else if t = "decimal" then .ok (.Decimal, none, none)
      else if t = "text" ∨ t = "string" then .ok (.Text, none, none)
      else if t = "date" then .ok (.Date, none, none)
      else if t = "timestamp" then .ok (.Timestamp, none, none)
      else if t = "timestamptz" then .ok (.TimestampTZ, none, none)
      else if t = "bool" ∨ t = "boolean" then .ok (.Boolean, none, none)
      else if t = "bytea" then .ok (.Bytes, none, none)
      else if t = "geography" then .ok (.Geography, none, none)
      else if startsWithLit "struct".data clean then .ok (.Struct, none, none)
      else .error (.Query ("Unsupported type: " ++ t))

/-- Re-insert the nullability flag into the result of `parseTypeBase`. -/
def parseTypeCore (clean : List Char) (is_nullable : Bool) :
    Except FireboltError (FbType × Bool × Option Int × Option Int) :=
  match parseTypeBase clean with
  | .error e => .error e
  | .ok (t, precision, scale) => .ok (t, is_nullable, precision, scale)

/-- Embeds `parse_type` from `src/parser.rs`. -/
def parse_type (s : String) :
    Except FireboltError (FbType × Bool × Option Int × Option Int) :=
  parseTypeCore (cleanChars s) (isNullableOf s)

/-! ### Result set and rows (`src/result.rs`) -/

/-- Embeds `Row` from `src/result.rs`: the raw per-column values together
with a copy of the column metadata list. -/
structure Row where
  data : List Json
  columns : List Column

/-- Embeds `Row::new`. -/
def Row.new (data : List Json) (columns : List Column) : Row :=
  ⟨data, columns⟩

/-- Embeds `ResultSet` from `src/result.rs`. -/
structure ResultSet where
  columns : List Column
  rows : List Row

/-- Models `columns.iter().enumerate().find(|(_, col)| col.name == name)`
from `Row::get`. -/
def findColumnByName : List Column → String → Nat → Option (Nat × Column)
  | [], _, _ => none
  | c :: rest, name, i =>
      if c.name = name then some (i, c) else findColumnByName rest name (i + 1)

/-- The column-resolution match inside `Row::get` (`src/result.rs`): ordinal
lookup with a bounds check, or linear name search. -/
def resolve_column (columns : List Column) : ColumnRef → Except FireboltError (Nat × Column)
  | .Index i =>
    match columns.get? i with
    | none => .error (.Query ("Column index " ++ toString i ++ " out of bounds"))
    | some column => .ok (i, column)
  | .Name name =>
    match findColumnByName columns name 0 with
    | none => .error (.Query ("Column '" ++ name ++ "' not found"))
    | some (index, column) => .ok (index, column)

/-- Embeds `Row::get` (`src/result.rs`): resolve the column reference, fetch
the raw value with a second bounds check on `data`, then convert.  The Rust
generic `T: TypeConversion` dispatch is modelled by passing the target
type's `convert_from_json` function explicitly. -/
def Row.get {α : Type} (r : Row) (column_ref : ColumnRef)
    (convert_from_json : Json → FbType → Except FireboltError α) :
    Except FireboltError α :=
  match resolve_column r.columns column_ref with
  | .error e => .error e
  | .ok (index, column) =>
    match r.data.get? index with
    | none => .error (.Query ("Column index " ++ toString index ++ " out of bounds"))
    | some value => convert_from_json value column.type

/-! ### Scalar conversion (`src/types.rs`), for the `i32` family -/

/-- Models `i32::try_from(v: i64).ok()`. -/
def i32TryFrom (n : Int) : Option Int :=
  if -2147483648 ≤ n ∧ n ≤ 2147483647 then some n else none

/-- Embeds `impl TypeConversion for i32` (`src/types.rs`): the non-nullable
32-bit integer target. -/
def i32_convert_from_json (value : Json) (column_type : FbType) :
    Except FireboltError Int :=
  match column_type with
  | .Int =>
    if value.isNull then
      .error (.Serialization "Cannot convert null to non-nullable type")
    else
      match value.asI64.bind i32TryFrom with
      | none => .error (.Serialization "Failed to convert to i32")
      | some v => .ok v
  | t => .error (.Serialization ("Cannot convert " ++ fbTypeDebug t ++ " to i32"))

/-- Embeds `impl TypeConversion for Option<i32>` (`src/types.rs`): the
nullable 32-bit integer target; JSON null short-circuits to `None` before
the column type is examined. -/
def opt_i32_convert_from_json (value : Json) (column_type : FbType) :
    Except FireboltError (Option Int) :=
  if value.isNull then .ok none
  else
    match column_type with
    | .Int =>
      match value.asI64.bind i32TryFrom with
      | none => .error (.Serialization "Failed to convert to i32")
      | some v => .ok (some v)
    | t => .error (.Serialization ("Cannot convert " ++ fbTypeDebug t ++ " to Option<i32>"))

/-! ### Response decoding (`src/parser.rs`) -/

/-- Models `iter().map(f).collect::<Result<Vec<_>, _>>()`: apply `f` to each
element, stopping at the first error. -/
def mapExcept {α β ε : Type} (f : α → Except ε β) : List α → Except ε (List β)
  | [] => .ok []
  | x :: xs =>
    match f x with
    | .error e => .error e
    | .ok y =>
      match mapExcept f xs with
      | .error e => .error e
      | .ok ys => .ok (y :: ys)

/-- The per-element decoding step of `parse_columns`. -/
def parseOneColumn (col : Json) : Except FireboltError Column :=
  match (col.getField "name").bind Json.asStr with
  | none => .error (.Query "Missing column name")
  | some name =>
    match (col.getField "type").bind Json.asStr with
    | none => .error (.Query "Missing column type")
    | some type_str =>
      match parse_type type_str with
      | .error e => .error e
      | .ok (t, is_nullable, precision, scale) =>
        .ok ⟨name, t, precision, scale, is_nullable⟩

/-- Embeds `parse_columns` from `src/parser.rs`. -/
def parse_columns (json : Json) : Except FireboltError (List Column) :=
  match (json.getField "meta").bind Json.asArray with
  | none => .error (.Query "Missing or invalid 'meta' field in response")
  | some meta => mapExcept parseOneColumn meta

/-- Embeds `parse_data` from `src/parser.rs`: each `data` element must be an
array; its values are retained verbatim in a `Row` that also carries a copy
of the column list.  No check relates the element's length to the number of
columns. -/
def parse_data (json : Json) (columns : List Column) :
    Except FireboltError (List Row) :=
  match (json.getField "data").bind Json.asArray with
  | none => .error (.Query "Missing or invalid 'data' field in response")
  | some data =>
    mapExcept (fun row_array =>
      match row_array.asArray with
      | none => .error (.Query "Row data is not an array")
      | some row_values => .ok (Row.new row_values columns)) data

/-- Embeds `parse_server_error` from `src/parser.rs`. -/
def parse_server_error (body : String) : FireboltError :=
  .Query ("Server error: " ++ body)

/-! ### JSON document parsing (model of `serde_json::from_str`)

`parse_response` first hands the body to `serde_json`, an external
collaborator.  The recursive-descent parser below models it: the four JSON
whitespace characters, `null`/`true`/`false`, strings with the standard
escapes, numbers (integer literals in `i64` range yield an extractable
integer; fractional/exponent forms and out-of-range integers yield a number
whose `as_i64` is `None`), arrays, and objects (duplicate keys: last wins).
Lone `\u` surrogate halves are rejected rather than paired.  Nesting and
repetition are bounded by a fuel parameter amply larger than the input
length. -/

/-- The `"` character, by code point. -/
def quoteC : Char := Char.ofNat 34

/-- The backslash character, by code point. -/
def backslashC : Char := Char.ofNat 92

/-- The opening curly bracket, by code point. -/
def braceL : Char := Char.ofNat 123

/-- The closing curly bracket, by code point. -/
def braceR : Char := Char.ofNat 125

/-- Skip JSON whitespace. -/
def skipWs (cs : List Char) : List Char :=
  cs.dropWhile (fun c => c == ' ' || c == '\t' || c == '\n' || c == '\r')

/-- Hex digit value. -/
def hexDigitVal (c : Char) : Option Nat :=
  if c.isDigit then some (c.toNat - 48)
  else if 'a' ≤ c ∧ c ≤ 'f' then some (c.toNat - 87)
  else if 'A' ≤ c ∧ c ≤ 'F' then some (c.toNat - 70)
  else none

/-- Scan a JSON string body up to the closing quote, decoding escapes. -/
def parseStringChars : List Char → Option (List Char × List Char)
  | [] => none
  | c :: rest =>
    if c = quoteC then some ([], rest)
    else if c = backslashC then
      match rest with
      | [] => none
      | e :: rest2 =>
        if e = quoteC ∨ e = backslashC ∨ e = '/' then
          match parseStringChars rest2 with
          | none => none
          | some (tail, r) => some (e :: tail, r)
        else if e = 'b' ∨ e = 'f' ∨ e = 'n' ∨ e = 'r' ∨ e = 't' then
          let d : Char :=
            if e = 'b' then Char.ofNat 8
            else if e = 'f' then Char.ofNat 12
            else if e = 'n' then '\n'
            else if e = 'r' then '\r'
            else '\t'
          match parseStringChars rest2 with
          | none => none
          | some (tail, r) => some (d :: tail, r)
        else if e = 'u' then
          match rest2 with
          | h1 :: h2 :: h3 :: h4 :: rest3 =>
            match hexDigitVal h1, hexDigitVal h2, hexDigitVal h3, hexDigitVal h4 with
            | some v1, some v2, some v3, some v4 =>
              let n := ((v1 * 16 + v2) * 16 + v3) * 16 + v4
              if n < 55296 ∨ 57343 < n then
                match parseStringChars rest3 with
                | none => none
                | some (tail, r) => some (Char.ofNat n :: tail, r)
              else none
            | _, _, _, _ => none
          | _ => none
        else none
    else if c.toNat < 32 then none
    else
      match parseStringChars rest with
      | none => none
      | some (tail, r) => some (c :: tail, r)

/-- The range check `serde_json` applies to integer literals before exposing
them through `as_i64`. -/
def i64Check (v : Int) : Option Int :=
  if -9223372036854775808 ≤ v ∧ v ≤ 9223372036854775807 then some v else none

/-- An optional-sign exponent digit run after `e`/`E`. -/
def expDigits (cs : List Char) : Option (List Char) :=
  let cs1 := match cs with
    | '+' :: r => r
    | '-' :: r => r
    | _ => cs
  let ds := cs1.takeWhile Char.isDigit
  if ds = [] then none else some (cs1.drop ds.length)

/-- Continuation after a fractional part: an optional exponent. -/
def afterFracPart (cs : List Char) : Option (Json × List Char) :=
  match cs with
  | 'e' :: r =>
    match expDigits r with
    | none => none
    | some rest => some (.num none, rest)
  | 'E' :: r =>
    match expDigits r with
    | none => none
    | some rest => some (.num none, rest)
  | _ => some (.num none, cs)

/-- Continuation after the integer part of a number literal. -/
def afterIntPart (signedVal : Int) (cs : List Char) : Option (Json × List Char) :=
  match cs with
  | '.' :: r =>
    let fs := r.takeWhile Char.isDigit
    if fs = [] then none else afterFracPart (r.drop fs.length)
  | 'e' :: r =>
    match expDigits r with
    | none => none
    | some rest => some (.num none, rest)
  | 'E' :: r =>
    match expDigits r with
    | none => none
    | some rest => some (.num none, rest)
  | _ => some (.num (i64Check signedVal), cs)

/-- A JSON number literal (leading zeros are rejected by taking a lone `0`
integer part, after which the outer grammar fails on the stray digit, just
as `serde_json` reports an error there). -/
def parseNumber (cs : List Char) : Option (Json × List Char) :=
  let negRest : Bool × List Char := match cs with
    | '-' :: rest => (true, rest)
    | _ => (false, cs)
  match negRest.2 with
  | [] => none
  | c :: _ =>
    if c.isDigit then
      let ds := if c = '0' then ['0'] else negRest.2.takeWhile Char.isDigit
      let v : Int := if negRest.1 then -(digitsToNat ds : Int) else (digitsToNat ds : Int)
      afterIntPart v (negRest.2.drop ds.length)
    else none

/-- Last-wins field insertion, matching the map semantics of a
`serde_json::Value::Object`. -/
def upsertField : List (String × Json) → String → Json → List (String × Json)
  | [], key, val => [(key, val)]
  | (k, v) :: rest, key, val =>
      if k = key then (key, val) :: rest else (k, v) :: upsertField rest key val

mutual

/-- A JSON value, fuel-bounded. -/
def parseValueF : Nat → List Char → Option (Json × List Char)
  | 0, _ => none
  | fuel + 1, cs =>
    match skipWs cs with
    | [] => none
    | c :: rest =>
      if c = quoteC then
        match parseStringChars rest with
        | none => none
        | some (sChars, rest2) => some (.str ⟨sChars⟩, rest2)
      else if c = braceL then parseObjF fuel rest
      else if c = '[' then parseArrF fuel rest
      else if c = 'n' then
        match dropLiteral "ull".data rest with
        | some rest2 => some (.null, rest2)
        | none => none
      else if c = 't' then
        match dropLiteral "rue".data rest with
        | some rest2 => some (.bool true, rest2)
        | none => none
      else if c = 'f' then
        match dropLiteral "alse".data rest with
        | some rest2 => some (.bool false, rest2)
        | none => none
      else parseNumber (c :: rest)

/-- A JSON array after its opening bracket. -/
def parseArrF : Nat → List Char → Option (Json × List Char)
  | 0, _ => none
  | fuel + 1, cs =>
    match skipWs cs with
    | ']' :: rest => some (.arr [], rest)
    | cs1 => parseArrElemsF fuel [] cs1

/-- The comma-separated elements of a JSON array. -/
def parseArrElemsF : Nat → List Json → List Char → Option (Json × List Char)
  | 0, _, _ => none
  | fuel + 1, acc, cs =>
    match parseValueF fuel cs with
    | none => none
    | some (v, rest) =>
      match skipWs rest with
      | ',' :: rest2 => parseArrElemsF fuel (acc ++ [v]) rest2
      | ']' :: rest2 => some (.arr (acc ++ [v]), rest2)
      | _ => none

/-- A JSON object after its opening bracket. -/
def parseObjF : Nat → List Char → Option (Json × List Char)
  | 0, _ => none
  | fuel + 1, cs =>
    match skipWs cs with
    | [] => none
    | c :: rest =>
      if c = braceR then some (.obj [], rest)
      else parseObjMembersF fuel [] (c :: rest)

/-- The comma-separated `"key": value` members of a JSON object. -/
def parseObjMembersF : Nat → List (String × Json) → List Char → Option (Json × List Char)
  | 0, _, _ => none
  | fuel + 1, acc, cs =>
    match skipWs cs with
    | [] => none
    | c :: rest =>
      if c = quoteC then
        match parseStringChars rest with
        | none => none
        | some (kChars, rest2) =>
          match skipWs rest2 with
          | ':' :: rest3 =>
            match parseValueF fuel rest3 with
            | none => none
            | some (v, rest4) =>
              let acc2 := upsertField acc ⟨kChars⟩ v
              match skipWs rest4 with
              | [] => none
              | c2 :: rest5 =>
                if c2 = ',' then parseObjMembersF fuel acc2 rest5
                else if c2 = braceR then some (.obj acc2, rest5)
                else none
          | _ => none
      else none

end

/-- Models `serde_json::from_str::<Value>`: one value, then only trailing
whitespace. -/
def fromStr (s : String) : Option Json :=
  match parseValueF (2 * s.data.length + 8) s.data with
  | none => none
  | some (j, rest) => if skipWs rest = [] then some j else none

/-- Embeds `parse_response` from `src/parser.rs`.  (The source interpolates
the `serde_json` error detail into the serialization message; the model
keeps the fixed prefix of that message.) -/
def parse_response (body : String) : Except FireboltError ResultSet :=
  match fromStr body with
  | none => .error (.Serialization "Failed to parse JSON")
  | some json =>
    match parse_columns json with
    | .error e => .error e
    | .ok columns =>
      match parse_data json columns with
      | .error e => .error e
      | .ok rows => .ok ⟨columns, rows⟩

/-! ### Session state and response-header processing (`src/client.rs`)

`FireboltClient` is mutable session state; its `&mut self` methods are
modelled by explicit state passing, an early `return Err` leaving the
mutations already applied in place. -/

/-- Embeds the `FireboltClient` session state (`src/client.rs`). -/
structure Session where
  client_id : String
  client_secret : String
  token : String
  parameters : Params
  engine_url : String
  api_endpoint : String
deriving DecidableEq, Repr

/-- Embeds `ensure_trailing_slash` (`src/client.rs`). -/
def ensure_trailing_slash (url : String) : String :=
  if url.data.getLast? = some '/' then url else url ++ "/"

/-- Embeds `FireboltClientFactory::fix_schema` (`src/client.rs`). -/
def fix_schema (url : String) : String :=
  if startsWithLit "https://".data url.data ∨ startsWithLit "http://".data url.data then url
  else "https://" ++ url

/-- The four `Firebolt-*` response headers the client consumes; `some v`
models a present header whose value read as the string `v` (the `to_str`
conversion is assumed to succeed; its failure path is not modelled). -/
structure HeadersModel where
  update_endpoint : Option String
  update_parameters : Option String
  reset_session : Option String
  remove_parameters : Option String
deriving DecidableEq, Repr

/-- The parts of a parsed absolute URL that `process_response_headers`
reads: scheme, host, path, and the query key/value pairs. -/
structure UrlParts where
  scheme : String
  host : String
  path : String
  queryPairs : List (String × String)
deriving DecidableEq, Repr

/-- Models `str::splitn(2, '=')` restricted to the found/not-found shape the
client checks: `none` when the string has no `=`, otherwise the parts
before and after the first `=`. -/
def splitFirstEqChars : List Char → Option (List Char × List Char)
  | [] => none
  | c :: cs =>
    if c = '=' then some ([], cs)
    else
      match splitFirstEqChars cs with
      | none => none
      | some (l, r) => some (c :: l, r)

/-- String-level wrapper of `splitFirstEqChars`. -/
def splitFirstEq (s : String) : Option (String × String) :=
  match splitFirstEqChars s.data with
  | none => none
  | some (l, r) => some (⟨l⟩, ⟨r⟩)

/-- Locate the `://` separator, returning scheme and remainder. -/
def splitScheme : List Char → Option (List Char × List Char)
  | [] => none
  | ':' :: '/' :: '/' :: rest => some ([], rest)
  | c :: cs =>
    match splitScheme cs with
    | none => none
    | some (a, b) => some (c :: a, b)

/-- A query-pair entry: split at the first `=`; a key without `=` gets the
empty value, as `Url::query_pairs` does. -/
def queryEntryToPair (e : String) : String × String :=
  match splitFirstEqChars e.data with
  | none => (e, "")
  | some (k, v) => (⟨k⟩, ⟨v⟩)

/-- Models `url::Url::parse` for the simple absolute `http(s)` URLs this
client handles: `scheme://host[:port][/path][?query][#fragment]`, without
percent-decoding or host normalization.  Relative URLs and empty hosts are
rejected; `https`/`http` URLs with no path get the normalized path `/`. -/
def urlParse (s : String) : Option UrlParts :=
  match splitScheme s.data with
  | none => none
  | some (schemeChars, rest) =>
    if schemeChars = [] then none
    else
      let authority := rest.takeWhile (fun c => c ≠ '/' && c ≠ '?' && c ≠ '#')
      let afterAuth := rest.drop authority.length
      let host := authority.takeWhile (· ≠ ':')
      let port := authority.drop host.length
      if host = [] then none
      else if ¬ (port = [] ∨ (port.head? = some ':' ∧ (port.drop 1).all Char.isDigit)) then none
      else
        let pathChars := afterAuth.takeWhile (fun c => c ≠ '?' && c ≠ '#')
        let path : String := if pathChars = [] then "/" else ⟨pathChars⟩
        let afterPath := afterAuth.drop pathChars.length
        let pairs : List (String × String) :=
          match afterPath with
          | '?' :: q =>
            let qStr : String := ⟨q.takeWhile (· ≠ '#')⟩
            ((splitChar '&' qStr).filter (· ≠ "")).map queryEntryToPair
          | _ => []
        some ⟨⟨schemeChars⟩, ⟨host⟩, path, pairs⟩

/-- Step (a) of `process_response_headers`: the `Firebolt-Update-Endpoint`
header.  Parse the (schema-fixed) value as a URL, rebuild `engine_url` from
scheme, host and non-root path, and upsert every query pair into the
session parameters. -/
def applyEndpointUpdate (s : Session) (v : String) : Session × Except FireboltError Unit :=
  match urlParse (fix_schema v) with
  | none => (s, .error (.HeaderParsing "Invalid endpoint URL"))
  | some u =>
    let base_url := u.scheme ++ "://" ++ u.host
    let engine_url := if u.path = "/" ∨ u.path = "" then base_url else base_url ++ u.path
    let params := u.queryPairs.foldl (fun acc kv => insertParam acc kv.1 kv.2) s.parameters
    ({ s with engine_url := engine_url, parameters := params }, .ok ())

/-- The loop body of step (b) of `process_response_headers`: walk the
comma-separated entries, trimming, skipping empty entries, splitting each
at its first `=`, and upserting trimmed key/value; a missing `=` or an
empty key stops the walk with a header-parsing error, keeping the upserts
already performed. -/
def applyParamEntries (p : Params) : List String → Params × Except FireboltError Unit
  | [] => (p, .ok ())
  | e :: rest =>
    let e' := rustTrim e
    if e' = "" then applyParamEntries p rest
    else
      match splitFirstEq e' with
      | none => (p, .error (.HeaderParsing ("Invalid parameter format: " ++ e')))
      | some (k, v) =>
        let key := rustTrim k
        let val := rustTrim v
        if key = "" then (p, .error (.HeaderParsing "Parameter key cannot be empty"))
        else applyParamEntries (insertParam p key val) rest

/-- Step (c) of `process_response_headers`: the `Firebolt-Reset-Session`
header clears the parameters, re-inserting the pre-clear `database` and
`engine` entries when they existed. -/
def applyResetSession (p : Params) : Params :=
  let database := getParam p "database"
  let engine := getParam p "engine"
  let p1 : Params := []
  let p2 := match database with
    | some db => insertParam p1 "database" db
    | none => p1
  match engine with
  | some eng => insertParam p2 "engine" eng
  | none => p2

/-- Step (d) of `process_response_headers`: the `Firebolt-Remove-Parameters`
header removes each trimmed nonempty listed key. -/
def applyRemoveParams (p : Params) (v : String) : Params :=
  (splitChar ',' v).foldl
    (fun acc name =>
      let n := rustTrim name
      if n = "" then acc else removeParam acc n) p

/-- Step (a) guarded by the presence of its header. -/
def headerStepA (s : Session) (h : HeadersModel) : Session × Except FireboltError Unit :=
  match h.update_endpoint with
  | none => (s, .ok ())
  | some v => applyEndpointUpdate s v

/-- Step (b) guarded by the presence of its header. -/
def headerStepB (s : Session) (h : HeadersModel) : Session × Except FireboltError Unit :=
  match h.update_parameters with
  | none => (s, .ok ())
  | some v =>
    let pr := applyParamEntries s.parameters (splitChar ',' v)
    ({ s with parameters := pr.1 }, pr.2)

/-- Step (c) guarded by the presence of its header. -/
def headerStepC (s : Session) (h : HeadersModel) : Session :=
  match h.reset_session with
  | none => s
  | some _ => { s with parameters := applyResetSession s.parameters }

/-- Step (d) guarded by the presence of its header. -/
def headerStepD (s : Session) (h : HeadersModel) : Session :=
  match h.remove_parameters with
  | none => s
  | some v => { s with parameters := applyRemoveParams s.parameters v }

/-- Embeds `FireboltClient::process_response_headers` (`src/client.rs`):
the four header-driven session mutations in their fixed order, an error
returning early with the mutations applied so far kept. -/
def process_response_headers (s : Session) (h : HeadersModel) :
    Session × Except FireboltError Unit :=
  match headerStepA s h with
  | (s1, .error e) => (s1, .error e)
  | (s1, .ok _) =>
    match headerStepB s1 h with
    | (s2, .error e) => (s2, .error e)
    | (s2, .ok _) => (headerStepD (headerStepC s2 h) h, .ok ())

/-! ### The query executor (`src/client.rs`)

The HTTP transport and the external Authenticator are oracles: `env n` is
the outcome of the `n`-th outbound POST of this query invocation, and
`authR` the outcome `crate::auth::authenticate` would produce.  The model
additionally records the requests sent (with the bearer token each carried)
and the number of Authenticator calls, which the Rust code performs as side
effects. -/

/-- One HTTP response as the executor observes it: status code, the
`Firebolt-*` headers, and the body text. -/
structure HttpResponse where
  status : Nat
  headers : HeadersModel
  body : String
deriving DecidableEq, Repr

/-- A transport outcome: a response, or a send failure. -/
inductive NetResult where
  | ok (resp : HttpResponse)
  | netErr (msg : String)
deriving DecidableEq, Repr

/-- One outbound request as built by `execute_query_request`: URL, SQL body,
query parameters, and the bearer token taken from the session. -/
structure Request where
  url : String
  sql : String
  params : Params
  token : String
deriving DecidableEq, Repr

/-- The observable outcome of one `execute_query_request` call: the session
after all mutations, the returned result, the requests sent, and the number
of Authenticator calls made. -/
structure ExecOutcome where
  session : Session
  result : Except FireboltError ResultSet
  requests : List Request
  auth_calls : Nat

/-- The status classification of `execute_query_request` when the
`401`-and-`should_retry` branch is not taken: a `401` is an authentication
failure ("no further retry"), `5xx` and any other non-2xx wrap the body as
a server error, and `2xx` processes the response headers and then decodes
the body. -/
def respond_non_retry (resp : HttpResponse) (s : Session) (req : Request) : ExecOutcome :=
  if resp.status = 401 then
    ⟨s, .error (.Authentication "Authentication failed after token refresh"), [req], 0⟩
  else if 500 ≤ resp.status ∧ resp.status ≤ 599 then
    ⟨s, .error (parse_server_error resp.body), [req], 0⟩
  else if 200 ≤ resp.status ∧ resp.status ≤ 299 then
    match process_response_headers s resp.headers with
    | (s1, .error e) => ⟨s1, .error e, [req], 0⟩
    | (s1, .ok _) => ⟨s1, parse_response resp.body, [req], 0⟩
  else
    ⟨s, .error (parse_server_error resp.body), [req], 0⟩

/-- `execute_query_request` instantiated at `should_retry = false`: one
attempt, no Authenticator. -/
def attempt_no_retry (env : Nat → NetResult) (attempt : Nat) (s : Session)
    (url sql : String) (params : Params) : ExecOutcome :=
  let req : Request := ⟨url, sql, params, s.token⟩
  match env attempt with
  | .netErr m => ⟨s, .error (.Network ("Request failed: " ++ m)), [req], 0⟩
  | .ok resp => respond_non_retry resp s req

/-- Embeds `FireboltClient::execute_query_request` (`src/client.rs`).  The
source is one recursive function threading a `should_retry` flag whose
only recursive call passes `false`; that call is embedded as
`attempt_no_retry`, the identical classification with the retry branch
unreachable.  A first-attempt `401` calls the Authenticator, stores the new
token in the session and resends the identical request once. -/
def execute_query_request (env : Nat → NetResult) (authR : Except String (String × Nat))
    (s : Session) (url sql : String) (params : Params)
    (should_retry : Bool) (attempt : Nat) : ExecOutcome :=
  let req : Request := ⟨url, sql, params, s.token⟩
  match env attempt with
  | .netErr m => ⟨s, .error (.Network ("Request failed: " ++ m)), [req], 0⟩
  | .ok resp =>
    if resp.status = 401 ∧ should_retry = true then
      match authR with
      | .error m =>
        ⟨s, .error (.Authentication ("Token refresh failed: " ++ m)), [req], 1⟩
      | .ok (new_token, _expiration) =>
        let s1 := { s with token := new_token }
        let inner := attempt_no_retry env (attempt + 1) s1 url sql params
        ⟨inner.session, inner.result, req :: inner.requests, 1 + inner.auth_calls⟩
    else
      respond_non_retry resp s req

/-- Embeds `FireboltClient::query` (`src/client.rs`): normalize the engine
URL, add `output_format=JSON_Compact` to a copy of the session parameters,
and run `execute_query_request` with `should_retry = true`. -/
def query (env : Nat → NetResult) (authR : Except String (String × Nat))
    (s : Session) (sql : String) : ExecOutcome :=
  let url := ensure_trailing_slash s.engine_url
  let params := insertParam s.parameters "output_format" "JSON_Compact"
  execute_query_request env authR s url sql params true 0

/-! ### Specification-side characterizations

Used to state (not to implement) the claims about the
`Firebolt-Update-Parameters` micro-format: `specParamsUpdate` follows the
specification's words — split on commas, trim, skip empty entries, split
each remaining entry at its first `=`, upsert trimmed key and value — and
`goodEntry`/`badEntry` classify one entry. -/

/-- The parameter-update fold as the specification describes it. -/
def specParamsFold (p : Params) (entries : List String) : Params :=
  entries.foldl
    (fun acc e =>
      let e' := rustTrim e
      if e' = "" then acc
      else
        match splitFirstEq e' with
        | none => acc
        | some (k, v) => insertParam acc (rustTrim k) (rustTrim v)) p

/-- A well-formed `Firebolt-Update-Parameters` entry: empty after trimming
(skipped), or containing an `=` with a nonempty trimmed key. -/
def goodEntry (e : String) : Prop :=
  rustTrim e = "" ∨ ∃ k v, splitFirstEq (rustTrim e) = some (k, v) ∧ rustTrim k ≠ ""

/-- A malformed `Firebolt-Update-Parameters` entry: nonempty after trimming
and either lacking `=` or having an empty trimmed key. -/
def badEntry (e : String) : Prop :=
  rustTrim e ≠ "" ∧
    (splitFirstEq (rustTrim e) = none ∨
      ∃ k v, splitFirstEq (rustTrim e) = some (k, v) ∧ rustTrim k = "")

/-! ## Helper lemmas -/

/-- `parseTypeCore` only ever copies its nullability argument into a
successful result. -/
theorem parseTypeCore_ok_flag (clean : List Char) (flag : Bool)
    (t : FbType) (b : Bool) (p q : Option Int)
    (h : parseTypeCore clean flag = .ok (t, b, p, q)) : b = flag := by
  unfold parseTypeCore at h
  rcases hf : parseTypeBase clean with e | ⟨t', p', q'⟩ <;> simp_all

/-- The successful value of `parseTypeCore` does not depend on the
nullability flag except in the copied component. -/
theorem parseTypeCore_flag_transfer (clean : List Char) (t : FbType)
    (p q : Option Int) (b1 b2 : Bool)
    (h : parseTypeCore clean b1 = .ok (t, b1, p, q)) :
    parseTypeCore clean b2 = .ok (t, b2, p, q) := by
  unfold parseTypeCore at h ⊢
  rcases hf : parseTypeBase clean with e | ⟨t', p', q'⟩ <;> simp_all

/-- Splitting on the first character run of `"null::" ++ s`. -/
theorem data_null_append (s : String) :
    ("null::" ++ s).data = 'n' :: 'u' :: 'l' :: 'l' :: ':' :: ':' :: s.data := rfl

/-- `"null::" ++ s` starts with the nullability marker. -/
theorem startsWithNull_null_append (s : String) :
    startsWithNull ("null::" ++ s).data = true := rfl

/-- Stripping the marker from `"null::" ++ s` leaves `s`. -/
theorem cleanChars_null_append (s : String) :
    cleanChars ("null::" ++ s) = s.data := rfl

/-! ## Claim C3 -/

/-- C3 counterexample: the claim says a descriptor starting with `"array"`
(such as `"array(decimal(10,2))"`) is classified as Array, never Decimal;
the code classifies `"array(decimal(10,2))"` as Decimal with precision 10
and scale 2, because the unanchored decimal regex is searched before the
`array` check. -/
theorem parse_type_array_decimal_counterexample :
    parse_type "array(decimal(10,2))" = .ok (.Decimal, false, some 10, some 2) ∧
    parse_type "array(decimal(10,2))" ≠ .ok (.Array, false, none, none) := by
  have h1 : parse_type "array(decimal(10,2))" = .ok (.Decimal, false, some 10, some 2) := rfl
  refine ⟨h1, ?_⟩
  rw [h1]
  simp

/-- C3 (amended): after stripping `null::`, the decimal check is an
unanchored regex search run before the `array` check: when the remaining
text contains a `decimal(<digits>,<whitespace><digits>)` substring whose
numbers fit in an i32, `parse_type` returns Decimal with the leftmost
match's precision and scale; only when no such substring occurs is a text
starting with `"array"` classified as Array. -/
theorem parse_type_decimal_before_array (s : String) :
    (∀ d1 d2 p q, findDecimalMatch (cleanChars s) = some (d1, d2) →
        parseI32Digits d1 = some p → parseI32Digits d2 = some q →
        parse_type s = .ok (.Decimal, isNullableOf s, some p, some q)) ∧
    (findDecimalMatch (cleanChars s) = none →
        startsWithLit "array".data (cleanChars s) = true →
        parse_type s = .ok (.Array, isNullableOf s, none, none)) := by
  constructor
  · intro d1 d2 p q h1 h2 h3
    unfold parse_type parseTypeCore parseTypeBase
    rw [h1]
    simp [h2, h3]
  · intro h1 h2
    unfold parse_type parseTypeCore parseTypeBase
    rw [h1]
    simp [h2]

/-- Witness for C3: both branches of the amended statement at concrete
descriptors. -/
theorem parse_type_decimal_before_array_witness :
    parse_type "null::decimal(10, 2)" = .ok (.Decimal, true, some 10, some 2) ∧
    parse_type "array(int)" = .ok (.Array, false, none, none) :=
  ⟨(parse_type_decimal_before_array "null::decimal(10, 2)").1
      "10".data "2".data 10 2 rfl rfl rfl,
    (parse_type_decimal_before_array "array(int)").2 rfl rfl⟩

/-! ## Claim C9 -/

/-- C9 counterexample: `"null::int"` is a wire-type string `parse_type`
accepts, yet `parse_type` on it returns `is_nullable = true` (the claim
asserts `false` for every accepted string), and prefixing it with
`"null::"` yields an unsupported-type error rather than the same base type
with the nullability flag set. -/
theorem parse_type_null_prefix_counterexample :
    parse_type "null::int" = .ok (.Int, true, none, none) ∧
    parse_type ("null::" ++ "null::int") =
      .error (.Query "Unsupported type: null::int") :=
  ⟨rfl, rfl⟩

/-- C9 (amended): for every accepted wire-type string that does not itself
begin with `"null::"`, prefixing it with `"null::"` changes only the
nullability flag — same base type, precision and scale, with
`is_nullable` going from `false` to `true`. -/
theorem parse_type_null_prefix_nullability (s : String)
    (h1 : startsWithNull s.data = false)
    (t : FbType) (b : Bool) (p q : Option Int)
    (h2 : parse_type s = .ok (t, b, p, q)) :
    b = false ∧ parse_type ("null::" ++ s) = .ok (t, true, p, q) := by
  have hclean : cleanChars s = s.data := by unfold cleanChars; simp [h1]
  have hnull : isNullableOf s = false := h1
  unfold parse_type at h2
  rw [hclean, hnull] at h2
  have hb : b = false := parseTypeCore_ok_flag s.data false t b p q h2
  subst hb
  refine ⟨rfl, ?_⟩
  unfold parse_type
  rw [cleanChars_null_append]
  have : isNullableOf ("null::" ++ s) = true := startsWithNull_null_append s
  rw [this]
  exact parseTypeCore_flag_transfer s.data t p q false true h2

/-- Witness for C9: the amended statement applied to `"int"`. -/
theorem parse_type_null_prefix_nullability_witness :
    parse_type ("null::" ++ "int") = .ok (.Int, true, none, none) :=
  (parse_type_null_prefix_nullability "int" rfl .Int false none none rfl).2

/-! ## Claim C2 -/

/-- Every element of a successful `mapExcept` is the successful image of
some input element. -/
theorem mapExcept_ok_mem {α β ε : Type} (f : α → Except ε β) (xs : List α)
    (ys : List β) (h : mapExcept f xs = .ok ys) :
    ∀ y ∈ ys, ∃ x ∈ xs, f x = .ok y := by
  induction xs generalizing ys with
  | nil =>
    unfold mapExcept at h
    cases h
    intro y hy
    cases hy
  | cons x xs ih =>
    unfold mapExcept at h
    rcases hf : f x with e | y0 <;> rw [hf] at h
    · cases h
    · rcases hm : mapExcept f xs with e | ys0 <;> rw [hm] at h
      · cases h
      · cases h
        intro y hy
        rcases List.mem_cons.mp hy with hy | hy
        · exact ⟨x, List.mem_cons_self x xs, hy ▸ hf⟩
        · obtain ⟨x', hx', hfx'⟩ := ih ys0 hm y hy
          exact ⟨x', List.mem_cons_of_mem x hx', hfx'⟩

/-- C2 counterexample: the claim says every accepted body yields rows whose
`data` length equals `columns.len()`; this body with one `meta` column and a
two-value row is accepted by `parse_response`, producing a row of length 2
against 1 column — no length check is performed. -/
theorem parse_response_row_length_counterexample :
    (parse_response
        "\x7b\"meta\": [\x7b\"name\": \"a\", \"type\": \"int\"\x7d], \"data\": [[1, 2]]\x7d").toOption.map
        (fun rs => (rs.rows.map (fun (r : Row) => r.data.length), rs.columns.length))
      = some ([2], 1) ∧ (2 : Nat) ≠ 1 := by
  exact ⟨rfl, by simp⟩

/-- C2 (amended): every `Row` of a `ResultSet` produced by `parse_response`
carries the parsed column list itself (so `row.columns.len() ==
columns.len()`), and its `data` is the corresponding wire row's values
verbatim — whose length is not validated against `columns.len()`. -/
theorem parse_response_rows_share_columns (body : String) (rs : ResultSet)
    (h : parse_response body = .ok rs) :
    ∀ r ∈ rs.rows, r.columns = rs.columns := by
  unfold parse_response at h
  rcases hj : fromStr body with _ | json <;> simp only [hj] at h
  · cases h
  · rcases hc : parse_columns json with e | columns <;> simp only [hc] at h
    · cases h
    · rcases hd : parse_data json columns with e | rows <;> simp only [hd] at h
      · cases h
      · cases h
        unfold parse_data at hd
        rcases ha : (json.getField "data").bind Json.asArray with _ | elems <;>
          simp only [ha] at hd
        · cases hd
        · intro r hr
          obtain ⟨x, _, hfx⟩ := mapExcept_ok_mem _ elems rows hd r hr
          rcases hx : x.asArray with _ | vals <;> simp only [hx] at hfx
          · cases hfx
          · cases hfx
            rfl

/-- Witness for C2: the amended statement at a concrete accepted body. -/
theorem parse_response_rows_share_columns_witness :
    Row.new [Json.num (some 1)] [⟨"test", .Int, none, none, false⟩] ∈
      ([Row.new [Json.num (some 1)] [⟨"test", .Int, none, none, false⟩]] : List Row) ∧
    (Row.new [Json.num (some 1)] [⟨"test", .Int, none, none, false⟩]).columns =
      [⟨"test", .Int, none, none, false⟩] :=
  ⟨List.mem_singleton.mpr rfl,
    parse_response_rows_share_columns
      "\x7b\"meta\": [\x7b\"name\": \"test\", \"type\": \"int\"\x7d], \"data\": [[1]]\x7d"
      ⟨[⟨"test", .Int, none, none, false⟩],
        [Row.new [Json.num (some 1)] [⟨"test", .Int, none, none, false⟩]]⟩
      rfl
      (Row.new [Json.num (some 1)] [⟨"test", .Int, none, none, false⟩])
      (List.mem_singleton.mpr rfl)⟩

/-! ## Claim C8 -/

/-- If some `data` element is not an array, the row-decoding pass fails
with the row-shape query error (every failure of this pass carries that
same message). -/
theorem mapExcept_row_not_array (columns : List Column) (elems : List Json)
    (h : ∃ x ∈ elems, x.asArray = none) :
    mapExcept (fun row_array =>
      match row_array.asArray with
      | none => Except.error (FireboltError.Query "Row data is not an array")
      | some row_values => Except.ok (Row.new row_values columns)) elems
    = .error (.Query "Row data is not an array") := by
  induction elems with
  | nil => simp at h
  | cons x xs ih =>
    obtain ⟨e, he, hnone⟩ := h
    unfold mapExcept
    rcases hx : x.asArray with _ | vals
    · simp
    · have htail : ∃ e ∈ xs, Json.asArray e = none := by
        rcases List.mem_cons.mp he with rfl | hmem
        · rw [hx] at hnone; cases hnone
        · exact ⟨e, hmem, hnone⟩
      rw [ih htail]

/-- C8: the decoder's failures are classified by kind — a body `serde_json`
rejects is a Serialization error; a missing/non-array `meta` is a Query
error; a missing/non-array `data` (with columns decoded) is a Query error;
a `data` element that is not itself an array is the "Row data is not an
array" Query error. -/
theorem parse_response_error_classification :
    (∀ body, fromStr body = none →
        parse_response body = .error (.Serialization "Failed to parse JSON")) ∧
    (∀ body j, fromStr body = some j →
        (j.getField "meta").bind Json.asArray = none →
        parse_response body = .error (.Query "Missing or invalid 'meta' field in response")) ∧
    (∀ body j columns, fromStr body = some j →
        parse_columns j = .ok columns →
        (j.getField "data").bind Json.asArray = none →
        parse_response body = .error (.Query "Missing or invalid 'data' field in response")) ∧
    (∀ body j columns elems, fromStr body = some j →
        parse_columns j = .ok columns →
        (j.getField "data").bind Json.asArray = some elems →
        (∃ x ∈ elems, x.asArray = none) →
        parse_response body = .error (.Query "Row data is not an array")) := by
  refine ⟨?_, ?_, ?_, ?_⟩
  · intro body h
    unfold parse_response
    rw [h]
  · intro body j hj hm
    have hc : parse_columns j = .error (.Query "Missing or invalid 'meta' field in response") := by
      unfold parse_columns
      rw [hm]
    unfold parse_response
    simp only [hj, hc]
  · intro body j columns hj hc hd
    have hpd : parse_data j columns = .error (.Query "Missing or invalid 'data' field in response") := by
      unfold parse_data
      rw [hd]
    unfold parse_response
    simp only [hj, hc, hpd]
  · intro body j columns elems hj hc hd hbad
    have hpd : parse_data j columns = .error (.Query "Row data is not an array") := by
      unfold parse_data
      simp only [hd]
      exact mapExcept_row_not_array columns elems hbad
    unfold parse_response
    simp only [hj, hc, hpd]

/-- Witness for C8: all four classifications at concrete bodies. -/
theorem parse_response_error_classification_witness :
    parse_response "not json" = .error (.Serialization "Failed to parse JSON") ∧
    parse_response "\x7b\"data\": []\x7d" =
      .error (.Query "Missing or invalid 'meta' field in response") ∧
    parse_response "\x7b\"meta\": []\x7d" =
      .error (.Query "Missing or invalid 'data' field in response") ∧
    parse_response "\x7b\"meta\": [], \"data\": [1]\x7d" =
      .error (.Query "Row data is not an array") :=
  ⟨parse_response_error_classification.1 "not json" rfl,
    parse_response_error_classification.2.1 "\x7b\"data\": []\x7d"
      (.obj [("data", .arr [])]) rfl rfl,
    parse_response_error_classification.2.2.1 "\x7b\"meta\": []\x7d"
      (.obj [("meta", .arr [])]) [] rfl rfl rfl,
    parse_response_error_classification.2.2.2 "\x7b\"meta\": [], \"data\": [1]\x7d"
      (.obj [("meta", .arr []), ("data", .arr [.num (some 1)])]) []
      [.num (some 1)] rfl rfl rfl
      ⟨.num (some 1), List.mem_singleton.mpr rfl, rfl⟩⟩

/-! ## Claim C4 -/

/-- C4: in a row position whose raw value is JSON null, `get` with the
nullable target `Option<i32>` returns the "no value" result regardless of
the declared column type, while `get` with the non-nullable target `i32`
fails with a Serialization condition. -/
theorem row_get_null_handling (r : Row) (ref : ColumnRef) (i : Nat) (col : Column)
    (h1 : resolve_column r.columns ref = .ok (i, col))
    (h2 : r.data.get? i = some .null) :
    Row.get r ref opt_i32_convert_from_json = .ok none ∧
    ∃ m, Row.get r ref i32_convert_from_json = .error (.Serialization m) := by
  obtain ⟨name, ty, p, sc, nb⟩ := col
  unfold Row.get
  simp only [h1, h2]
  constructor
  · rfl
  · cases ty <;> exact ⟨_, rfl⟩

/-- Witness for C4: a one-column row holding a JSON null. -/
theorem row_get_null_handling_witness :
    Row.get ⟨[Json.null], [⟨"a", .Int, none, none, true⟩]⟩ (.Index 0)
        opt_i32_convert_from_json = .ok none ∧
    ∃ m, Row.get ⟨[Json.null], [⟨"a", .Int, none, none, true⟩]⟩ (.Index 0)
        i32_convert_from_json = .error (.Serialization m) :=
  row_get_null_handling ⟨[Json.null], [⟨"a", .Int, none, none, true⟩]⟩
    (.Index 0) 0 ⟨"a", .Int, none, none, true⟩ rfl rfl

/-! ## Claim C10 -/

/-- C10: `Row::get` is total — it resolves the reference and then applies a
second bounds check to the data vector, so a row whose `data` is shorter
than its column list yields the "Column index ... out of bounds" Query
error (for both ordinal and name addressing) rather than a panic. -/
theorem row_get_second_bounds_check {α : Type}
    (conv : Json → FbType → Except FireboltError α) (r : Row) :
    (∀ i, i < r.columns.length → r.data.length ≤ i →
        Row.get r (.Index i) conv =
          .error (.Query ("Column index " ++ toString i ++ " out of bounds"))) ∧
    (∀ name i col, findColumnByName r.columns name 0 = some (i, col) →
        r.data.length ≤ i →
        Row.get r (.Name name) conv =
          .error (.Query ("Column index " ++ toString i ++ " out of bounds"))) := by
  constructor
  · intro i hlt hle
    obtain ⟨col, hcol⟩ : ∃ col, r.columns.get? i = some col := by
      rw [List.get?_eq_get hlt]
      exact ⟨_, rfl⟩
    have hdata : r.data.get? i = none := List.get?_eq_none.mpr hle
    unfold Row.get resolve_column
    simp only [hcol, hdata]
  · intro name i col hfind hle
    have hdata : r.data.get? i = none := List.get?_eq_none.mpr hle
    unfold Row.get resolve_column
    simp only [hfind, hdata]

/-- Witness for C10: an empty-data row with one column, addressed by
ordinal and by name. -/
theorem row_get_second_bounds_check_witness :
    Row.get ⟨[], [⟨"a", .Int, none, none, false⟩]⟩ (.Index 0) i32_convert_from_json
      = .error (.Query ("Column index " ++ toString 0 ++ " out of bounds")) ∧
    Row.get ⟨[], [⟨"a", .Int, none, none, false⟩]⟩ (.Name "a") i32_convert_from_json
      = .error (.Query ("Column index " ++ toString 0 ++ " out of bounds")) :=
  ⟨(row_get_second_bounds_check i32_convert_from_json
        ⟨[], [⟨"a", .Int, none, none, false⟩]⟩).1 0 (by decide) (by decide),
    (row_get_second_bounds_check i32_convert_from_json
        ⟨[], [⟨"a", .Int, none, none, false⟩]⟩).2 "a" 0
      ⟨"a", .Int, none, none, false⟩ rfl (by decide)⟩

/-! ## Claim C5 -/

/-- The reset step keeps the pre-clear `database` entry. -/
theorem applyResetSession_getParam_database (p : Params) :
    getParam (applyResetSession p) "database" = getParam p "database" := by
  unfold applyResetSession
  rcases getParam p "database" with _ | db <;>
    rcases getParam p "engine" with _ | eng <;> rfl

/-- The reset step keeps the pre-clear `engine` entry. -/
theorem applyResetSession_getParam_engine (p : Params) :
    getParam (applyResetSession p) "engine" = getParam p "engine" := by
  unfold applyResetSession
  rcases getParam p "database" with _ | db <;>
    rcases getParam p "engine" with _ | eng <;> rfl

/-- The reset step removes every other entry. -/
theorem applyResetSession_getParam_other (p : Params) (k : String)
    (h1 : k ≠ "database") (h2 : k ≠ "engine") :
    getParam (applyResetSession p) k = none := by
  have h1' : ¬ "database" = k := fun hh => h1 hh.symm
  have h2' : ¬ "engine" = k := fun hh => h2 hh.symm
  unfold applyResetSession
  rcases getParam p "database" with _ | db <;>
    rcases getParam p "engine" with _ | eng
  · rfl
  · show getParam [("engine", eng)] k = none
    simp [getParam, h2']
  · show getParam [("database", db)] k = none
    simp [getParam, h1']
  · show getParam [("database", db), ("engine", eng)] k = none
    simp [getParam, h1', h2']

/-- C5: a response carrying `Firebolt-Reset-Session` (any value) leaves the
parameter map holding exactly the pre-clear `database` and `engine` entries
(when they were present) and nothing else; with only that header present
the whole header-processing pass performs exactly this clear and succeeds. -/
theorem reset_session_preserves_database_engine :
    (∀ (p : Params) (k : String), getParam (applyResetSession p) k =
        if k = "database" then getParam p "database"
        else if k = "engine" then getParam p "engine"
        else none) ∧
    (∀ (s : Session) (v : String),
        process_response_headers s ⟨none, none, some v, none⟩ =
          ({ s with parameters := applyResetSession s.parameters }, .ok ())) := by
  constructor
  · intro p k
    by_cases h1 : k = "database"
    · subst h1
      rw [if_pos rfl]
      exact applyResetSession_getParam_database p
    · by_cases h2 : k = "engine"
      · subst h2
        rw [if_neg h1, if_pos rfl]
        exact applyResetSession_getParam_engine p
      · rw [if_neg h1, if_neg h2]
        exact applyResetSession_getParam_other p k h1 h2
  · intro s v
    rfl

/-! ## Claim C6 -/

/-- Entry-list walk on well-formed entries: no error, and the resulting map
is the upsert fold the specification describes. -/
theorem applyParamEntries_good (es : List String) (p : Params)
    (h : ∀ e ∈ es, goodEntry e) :
    applyParamEntries p es = (specParamsFold p es, .ok ()) := by
  induction es generalizing p with
  | nil => rfl
  | cons e rest ih =>
    have hge := h e (List.mem_cons_self e rest)
    have hrest : ∀ x ∈ rest, goodEntry x := fun x hx => h x (List.mem_cons_of_mem e hx)
    rcases hge with hemp | ⟨k, v, hsplit, hkey⟩
    · simp only [applyParamEntries, specParamsFold, List.foldl_cons, hemp, if_pos]
      exact ih p hrest
    · have hne : rustTrim e ≠ "" := by
        intro hh
        rw [hh] at hsplit
        cases hsplit
      simp only [applyParamEntries, specParamsFold, List.foldl_cons, if_neg hne, hsplit,
        if_neg hkey]
      exact ih (insertParam p (rustTrim k) (rustTrim v)) hrest

/-- Entry-list walk hitting a malformed entry: the result is a
header-parsing error. -/
theorem applyParamEntries_bad (es : List String) (p : Params)
    (h : ∃ e ∈ es, badEntry e) :
    ∃ m, (applyParamEntries p es).2 = .error (.HeaderParsing m) := by
  induction es generalizing p with
  | nil => simp at h
  | cons e rest ih =>
    obtain ⟨x, hx, hbad⟩ := h
    by_cases hemp : rustTrim e = ""
    · have hxrest : x ∈ rest := by
        rcases List.mem_cons.mp hx with rfl | hh
        · exact absurd hemp hbad.1
        · exact hh
      obtain ⟨m, hm⟩ := ih p ⟨x, hxrest, hbad⟩
      refine ⟨m, ?_⟩
      simp only [applyParamEntries, hemp, if_pos]
      exact hm
    · rcases hsp : splitFirstEq (rustTrim e) with _ | ⟨k, v⟩
      · refine ⟨"Invalid parameter format: " ++ rustTrim e, ?_⟩
        simp only [applyParamEntries, if_neg hemp, hsp]
      · by_cases hkey : rustTrim k = ""
        · refine ⟨"Parameter key cannot be empty", ?_⟩
          simp only [applyParamEntries, if_neg hemp, hsp, if_pos hkey]
        · have hxrest : x ∈ rest := by
            rcases List.mem_cons.mp hx with rfl | hh
            · rcases hbad.2 with hn | ⟨k', v', hs', hk'⟩
              · rw [hsp] at hn; cases hn
              · rw [hsp] at hs'
                cases hs'
                exact absurd hk' hkey
            · exact hh
          obtain ⟨m, hm⟩ := ih (insertParam p (rustTrim k) (rustTrim v)) ⟨x, hxrest, hbad⟩
          refine ⟨m, ?_⟩
          simp only [applyParamEntries, if_neg hemp, hsp, if_neg hkey]
          exact hm

/-- A non-401 transport response makes `execute_query_request` behave as
the non-retry classification, regardless of the retry flag. -/
theorem exec_ok_non401 (env : Nat → NetResult) (authR : Except String (String × Nat))
    (s : Session) (url sql : String) (params : Params) (should_retry : Bool)
    (attempt : Nat) (resp : HttpResponse)
    (henv : env attempt = .ok resp) (hne : resp.status ≠ 401) :
    execute_query_request env authR s url sql params should_retry attempt =
      respond_non_retry resp s ⟨url, sql, params, s.token⟩ := by
  unfold execute_query_request
  simp [henv, hne]

/-- The `2xx` branch of the classification: process headers, then decode. -/
theorem respond_non_retry_2xx (resp : HttpResponse) (s : Session) (req : Request)
    (h200 : 200 ≤ resp.status) (h299 : resp.status ≤ 299) :
    respond_non_retry resp s req =
      match process_response_headers s resp.headers with
      | (s1, .error e) => ⟨s1, .error e, [req], 0⟩
      | (s1, .ok _) => ⟨s1, parse_response resp.body, [req], 0⟩ := by
  have h1 : ¬ resp.status = 401 := by omega
  have h2 : ¬(500 ≤ resp.status ∧ resp.status ≤ 599) := by
    rintro ⟨ha, _⟩
    omega
  unfold respond_non_retry
  rw [if_neg h1, if_neg h2, if_pos ⟨h200, h299⟩]

/-- C6: the `Firebolt-Update-Parameters` value is split on commas; each
entry is trimmed, empty entries are skipped, the rest are split at the
first `=` (values may contain `=`) and upserted with trimmed key and value;
an entry lacking `=` or with an empty key produces a header-parsing error,
and on a 2xx response with such a header the whole query call fails with
that Header Parsing condition. -/
theorem update_parameters_microformat :
    (∀ (p : Params) (v : String), (∀ e ∈ splitChar ',' v, goodEntry e) →
        applyParamEntries p (splitChar ',' v) =
          (specParamsFold p (splitChar ',' v), .ok ())) ∧
    (∀ (p : Params) (v : String), (∃ e ∈ splitChar ',' v, badEntry e) →
        ∃ m, (applyParamEntries p (splitChar ',' v)).2 = .error (.HeaderParsing m)) ∧
    (∀ (env : Nat → NetResult) (authR : Except String (String × Nat))
        (s : Session) (sql v : String) (resp : HttpResponse),
        env 0 = .ok resp → 200 ≤ resp.status → resp.status ≤ 299 →
        resp.headers.update_endpoint = none →
        resp.headers.update_parameters = some v →
        (∃ e ∈ splitChar ',' v, badEntry e) →
        ∃ m, (query env authR s sql).result = .error (.HeaderParsing m)) := by
  refine ⟨fun p v => applyParamEntries_good (splitChar ',' v) p,
    fun p v => applyParamEntries_bad (splitChar ',' v) p, ?_⟩
  intro env authR s sql v resp henv h200 h299 hep hup hbad
  obtain ⟨m, hm⟩ := applyParamEntries_bad (splitChar ',' v) s.parameters hbad
  refine ⟨m, ?_⟩
  have hq : query env authR s sql =
      execute_query_request env authR s (ensure_trailing_slash s.engine_url) sql
        (insertParam s.parameters "output_format" "JSON_Compact") true 0 := rfl
  rw [hq, exec_ok_non401 env authR s _ sql _ true 0 resp henv (by omega),
    respond_non_retry_2xx resp s _ h200 h299]
  rcases hap : applyParamEntries s.parameters (splitChar ',' v) with ⟨p', r⟩
  rw [hap] at hm
  simp only at hm
  subst hm
  have hph : process_response_headers s resp.headers =
      ({ s with parameters := p' }, .error (.HeaderParsing m)) := by
    unfold process_response_headers headerStepA headerStepB
    simp [hep, hup, hap]
  rw [hph]

/-- Witness for C6: the well-formed fold at `"a=1, b=2"`, and the empty-key
failure `"=value"` both at the entry-walk level and through a full 2xx
query. -/
theorem update_parameters_microformat_witness :
    applyParamEntries [] (splitChar ',' "a=1, b=2") = ([("a", "1"), ("b", "2")], .ok ()) ∧
    (∃ m, (applyParamEntries [] (splitChar ',' "=value")).2 = .error (.HeaderParsing m)) ∧
    (∃ m, (query (fun _ => .ok ⟨200, ⟨none, some "=value", none, none⟩, ""⟩)
        (.ok ("t", 0)) ⟨"i", "c", "tok", [], "https://e", "https://a"⟩ "SELECT 1").result
      = .error (.HeaderParsing m)) := by
  have hbad : ∃ e ∈ splitChar ',' "=value", badEntry e := by
    refine ⟨"=value", ?_, ?_, Or.inr ⟨"", "value", rfl, rfl⟩⟩
    · rw [show splitChar ',' "=value" = ["=value"] from rfl]
      exact List.mem_singleton.mpr rfl
    · decide
  refine ⟨?_, update_parameters_microformat.2.1 [] "=value" hbad,
    update_parameters_microformat.2.2 _ _ _ _ "=value" _ rfl (by decide) (by decide)
      rfl rfl hbad⟩
  have hgood : ∀ e ∈ splitChar ',' "a=1, b=2", goodEntry e := by
    intro e he
    rw [show splitChar ',' "a=1, b=2" = ["a=1", " b=2"] from rfl] at he
    rcases List.mem_cons.mp he with rfl | he
    · exact Or.inr ⟨"a", "1", rfl, by decide⟩
    · rcases List.mem_cons.mp he with rfl | he
      · exact Or.inr ⟨"b", "2", rfl, by decide⟩
      · cases he
  exact update_parameters_microformat.1 [] "a=1, b=2" hgood

/-! ## Claim C7 -/

/-- C7: header-driven session mutation is not atomic — a 2xx response
carrying a valid `Firebolt-Update-Endpoint` header and an
`Firebolt-Update-Parameters` value whose first entry is valid and second is
malformed makes the query call fail with a Header Parsing condition while
the session keeps the new engine URL, the endpoint's query-parameter
upsert, and the first entry's upsert. -/
theorem header_mutation_not_atomic :
    (query (fun _ => .ok ⟨200,
          ⟨some "https://new.engine.example/path?p1=v1", some "k1=v1, bad", none, none⟩, ""⟩)
        (.ok ("t2", 0))
        ⟨"id", "secret", "tok", [("a", "1")], "https://old.example", "https://api"⟩
        "SELECT 1").result = .error (.HeaderParsing "Invalid parameter format: bad") ∧
    (query (fun _ => .ok ⟨200,
          ⟨some "https://new.engine.example/path?p1=v1", some "k1=v1, bad", none, none⟩, ""⟩)
        (.ok ("t2", 0))
        ⟨"id", "secret", "tok", [("a", "1")], "https://old.example", "https://api"⟩
        "SELECT 1").session.engine_url = "https://new.engine.example/path" ∧
    getParam (query (fun _ => .ok ⟨200,
          ⟨some "https://new.engine.example/path?p1=v1", some "k1=v1, bad", none, none⟩, ""⟩)
        (.ok ("t2", 0))
        ⟨"id", "secret", "tok", [("a", "1")], "https://old.example", "https://api"⟩
        "SELECT 1").session.parameters "p1" = some "v1" ∧
    getParam (query (fun _ => .ok ⟨200,
          ⟨some "https://new.engine.example/path?p1=v1", some "k1=v1, bad", none, none⟩, ""⟩)
        (.ok ("t2", 0))
        ⟨"id", "secret", "tok", [("a", "1")], "https://old.example", "https://api"⟩
        "SELECT 1").session.parameters "k1" = some "v1" :=
  ⟨rfl, rfl, rfl, rfl⟩

/-! ## Claim C1 -/

/-- The endpoint-update step does not touch the session token. -/
theorem applyEndpointUpdate_fst_token (s : Session) (v : String) :
    (applyEndpointUpdate s v).1.token = s.token := by
  unfold applyEndpointUpdate
  rcases urlParse (fix_schema v) with _ | u <;> rfl

/-- Step (a) does not touch the session token. -/
theorem headerStepA_token (s : Session) (h : HeadersModel) :
    (headerStepA s h).1.token = s.token := by
  unfold headerStepA
  rcases h.update_endpoint with _ | v
  · rfl
  · exact applyEndpointUpdate_fst_token s v

/-- Step (b) does not touch the session token. -/
theorem headerStepB_token (s : Session) (h : HeadersModel) :
    (headerStepB s h).1.token = s.token := by
  unfold headerStepB
  rcases h.update_parameters with _ | v <;> rfl

/-- Step (c) does not touch the session token. -/
theorem headerStepC_token (s : Session) (h : HeadersModel) :
    (headerStepC s h).token = s.token := by
  unfold headerStepC
  rcases h.reset_session with _ | v <;> rfl

/-- Step (d) does not touch the session token. -/
theorem headerStepD_token (s : Session) (h : HeadersModel) :
    (headerStepD s h).token = s.token := by
  unfold headerStepD
  rcases h.remove_parameters with _ | v <;> rfl

/-- Header processing never touches the session token. -/
theorem process_response_headers_fst_token (s : Session) (h : HeadersModel) :
    (process_response_headers s h).1.token = s.token := by
  unfold process_response_headers
  split
  next s1 e heq =>
    have tA := headerStepA_token s h
    rw [heq] at tA
    exact tA
  next s1 u heq =>
    have tA := headerStepA_token s h
    rw [heq] at tA
    simp only at tA
    split
    next s2 e heq2 =>
      have tB := headerStepB_token s1 h
      rw [heq2] at tB
      exact tB.trans tA
    next s2 u2 heq2 =>
      have tB := headerStepB_token s1 h
      rw [heq2] at tB
      simp only at tB
      show (headerStepD (headerStepC s2 h) h).token = s.token
      rw [headerStepD_token, headerStepC_token]
      exact tB.trans tA

/-- The non-retry classification sends exactly the one given request, never
calls the Authenticator, and leaves the token unchanged. -/
theorem respond_non_retry_basic (resp : HttpResponse) (s : Session) (req : Request) :
    (respond_non_retry resp s req).requests = [req] ∧
    (respond_non_retry resp s req).auth_calls = 0 ∧
    (respond_non_retry resp s req).session.token = s.token := by
  unfold respond_non_retry
  split_ifs
  · exact ⟨rfl, rfl, rfl⟩
  · exact ⟨rfl, rfl, rfl⟩
  · have hT := process_response_headers_fst_token s resp.headers
    rcases hph : process_response_headers s resp.headers with ⟨s1, r⟩
    rw [hph] at hT
    simp only at hT
    rcases r with e | u <;> exact ⟨rfl, rfl, hT⟩
  · exact ⟨rfl, rfl, rfl⟩

/-- A single no-retry attempt sends exactly one request carrying the
session's token, never calls the Authenticator, and leaves the token
unchanged. -/
theorem attempt_no_retry_basic (env : Nat → NetResult) (attempt : Nat)
    (s : Session) (url sql : String) (params : Params) :
    (attempt_no_retry env attempt s url sql params).requests = [⟨url, sql, params, s.token⟩] ∧
    (attempt_no_retry env attempt s url sql params).auth_calls = 0 ∧
    (attempt_no_retry env attempt s url sql params).session.token = s.token := by
  unfold attempt_no_retry
  rcases env attempt with resp | m
  · exact respond_non_retry_basic resp s _
  · exact ⟨rfl, rfl, rfl⟩

/-- A `401` on a no-retry attempt is a terminal authentication failure. -/
theorem attempt_no_retry_401 (env : Nat → NetResult) (attempt : Nat)
    (s : Session) (url sql : String) (params : Params) (resp : HttpResponse)
    (henv : env attempt = .ok resp) (h401 : resp.status = 401) :
    (attempt_no_retry env attempt s url sql params).result =
      .error (.Authentication "Authentication failed after token refresh") := by
  unfold attempt_no_retry respond_non_retry
  simp [henv, h401]

/-- A first-attempt `401` with a successful Authenticator: store the new
token and resend once. -/
theorem exec_401_auth_ok (env : Nat → NetResult) (authR : Except String (String × Nat))
    (s : Session) (url sql : String) (params : Params) (attempt : Nat)
    (resp : HttpResponse) (tok : String) (exp : Nat)
    (henv : env attempt = .ok resp) (h401 : resp.status = 401)
    (hauth : authR = .ok (tok, exp)) :
    execute_query_request env authR s url sql params true attempt =
      ⟨(attempt_no_retry env (attempt + 1) { s with token := tok } url sql params).session,
        (attempt_no_retry env (attempt + 1) { s with token := tok } url sql params).result,
        ⟨url, sql, params, s.token⟩ ::
          (attempt_no_retry env (attempt + 1) { s with token := tok } url sql params).requests,
        1 + (attempt_no_retry env (attempt + 1) { s with token := tok } url sql params).auth_calls⟩ := by
  unfold execute_query_request
  simp [henv, h401, hauth]

/-- A first-attempt `401` with a failing Authenticator: the whole query
fails with an authentication error after the one request. -/
theorem exec_401_auth_err (env : Nat → NetResult) (authR : Except String (String × Nat))
    (s : Session) (url sql : String) (params : Params) (attempt : Nat)
    (resp : HttpResponse) (m : String)
    (henv : env attempt = .ok resp) (h401 : resp.status = 401)
    (hauth : authR = .error m) :
    execute_query_request env authR s url sql params true attempt =
      ⟨s, .error (.Authentication ("Token refresh failed: " ++ m)),
        [⟨url, sql, params, s.token⟩], 1⟩ := by
  unfold execute_query_request
  simp [henv, h401, hauth]

/-- C1: every query invocation sends at most two HTTP requests.  A `401` on
the first attempt with a successful Authenticator makes exactly one
Authenticator call, stores the refreshed token in the session, and resends
the identical request (same URL, SQL and parameters, new bearer token)
exactly once; a `401` on that second attempt fails with an Authentication
condition and no further retry.  An Authenticator failure fails the whole
query with an Authentication condition after the single request. -/
theorem query_single_retry_protocol (env : Nat → NetResult)
    (authR : Except String (String × Nat)) (s : Session) (sql : String) :
    (query env authR s sql).requests.length ≤ 2 ∧
    (∀ resp, env 0 = .ok resp → resp.status = 401 →
      (∀ tok exp, authR = .ok (tok, exp) →
        (query env authR s sql).auth_calls = 1 ∧
        (query env authR s sql).requests =
          [⟨ensure_trailing_slash s.engine_url, sql,
              insertParam s.parameters "output_format" "JSON_Compact", s.token⟩,
            ⟨ensure_trailing_slash s.engine_url, sql,
              insertParam s.parameters "output_format" "JSON_Compact", tok⟩] ∧
        (query env authR s sql).session.token = tok ∧
        (∀ resp2, env 1 = .ok resp2 → resp2.status = 401 →
          (query env authR s sql).result =
            .error (.Authentication "Authentication failed after token refresh"))) ∧
      (∀ m, authR = .error m →
        (query env authR s sql).auth_calls = 1 ∧
        (query env authR s sql).requests =
          [⟨ensure_trailing_slash s.engine_url, sql,
              insertParam s.parameters "output_format" "JSON_Compact", s.token⟩] ∧
        (query env authR s sql).result =
          .error (.Authentication ("Token refresh failed: " ++ m)))) := by
  have hq : query env authR s sql =
      execute_query_request env authR s (ensure_trailing_slash s.engine_url) sql
        (insertParam s.parameters "output_format" "JSON_Compact") true 0 := rfl
  constructor
  · rw [hq]
    rcases henv : env 0 with resp | m
    · by_cases h401 : resp.status = 401
      · rcases authR with m | ⟨tok, exp⟩
        · rw [exec_401_auth_err env (.error m) s _ sql _ 0 resp m henv h401 rfl]
          simp
        · rw [exec_401_auth_ok env (.ok (tok, exp)) s _ sql _ 0 resp tok exp henv h401 rfl]
          simp [(attempt_no_retry_basic env 1 { s with token := tok } _ sql _).1]
      · rw [exec_ok_non401 env authR s _ sql _ true 0 resp henv h401]
        rw [(respond_non_retry_basic resp s _).1]
        simp
    · unfold execute_query_request
      simp [henv]
  · intro resp henv h401
    constructor
    · intro tok exp hauth
      have hx := exec_401_auth_ok env authR s (ensure_trailing_slash s.engine_url) sql
        (insertParam s.parameters "output_format" "JSON_Compact") 0 resp tok exp henv h401 hauth
      obtain ⟨hreq, hcalls, htok⟩ := attempt_no_retry_basic env 1 { s with token := tok }
        (ensure_trailing_slash s.engine_url) sql
        (insertParam s.parameters "output_format" "JSON_Compact")
      refine ⟨?_, ?_, ?_, ?_⟩
      · rw [hq, hx]
        simp [hcalls]
      · rw [hq, hx]
        simp [hreq]
      · rw [hq, hx]
        simp [htok]
      · intro resp2 henv2 h4012
        rw [hq, hx]
        simp only
        exact attempt_no_retry_401 env 1 { s with token := tok } _ sql _ resp2 henv2 h4012
    · intro m hauth
      have hx := exec_401_auth_err env authR s (ensure_trailing_slash s.engine_url) sql
        (insertParam s.parameters "output_format" "JSON_Compact") 0 resp m henv h401 hauth
      rw [hq, hx]
      exact ⟨rfl, rfl, rfl⟩

/-- Witness for C1: a transport answering `401` to every attempt with a
succeeding Authenticator — two requests, the second carrying the refreshed
token, a terminal authentication failure; and the same transport with a
failing Authenticator — one request and an authentication failure. -/
theorem query_single_retry_protocol_witness :
    (query (fun _ => .ok ⟨401, ⟨none, none, none, none⟩, ""⟩) (.ok ("t2", 0))
        ⟨"i", "c", "t1", [], "https://e/", "https://a"⟩ "SELECT 1").auth_calls = 1 ∧
    (query (fun _ => .ok ⟨401, ⟨none, none, none, none⟩, ""⟩) (.ok ("t2", 0))
        ⟨"i", "c", "t1", [], "https://e/", "https://a"⟩ "SELECT 1").requests =
      [⟨"https://e/", "SELECT 1", [("output_format", "JSON_Compact")], "t1"⟩,
        ⟨"https://e/", "SELECT 1", [("output_format", "JSON_Compact")], "t2"⟩] ∧
    (query (fun _ => .ok ⟨401, ⟨none, none, none, none⟩, ""⟩) (.ok ("t2", 0))
        ⟨"i", "c", "t1", [], "https://e/", "https://a"⟩ "SELECT 1").session.token = "t2" ∧
    (query (fun _ => .ok ⟨401, ⟨none, none, none, none⟩, ""⟩) (.ok ("t2", 0))
        ⟨"i", "c", "t1", [], "https://e/", "https://a"⟩ "SELECT 1").result =
      .error (.Authentication "Authentication failed after token refresh") ∧
    (query (fun _ => .ok ⟨401, ⟨none, none, none, none⟩, ""⟩) (.error "boom")
        ⟨"i", "c", "t1", [], "https://e/", "https://a"⟩ "SELECT 1").result =
      .error (.Authentication ("Token refresh failed: " ++ "boom")) := by
  have h1 := (query_single_retry_protocol (fun _ => .ok ⟨401, ⟨none, none, none, none⟩, ""⟩)
    (.ok ("t2", 0)) ⟨"i", "c", "t1", [], "https://e/", "https://a"⟩ "SELECT 1").2
    ⟨401, ⟨none, none, none, none⟩, ""⟩ rfl rfl
  have h2 := (query_single_retry_protocol (fun _ => .ok ⟨401, ⟨none, none, none, none⟩, ""⟩)
    (.error "boom") ⟨"i", "c", "t1", [], "https://e/", "https://a"⟩ "SELECT 1").2
    ⟨401, ⟨none, none, none, none⟩, ""⟩ rfl rfl
  obtain ⟨hc, hr, ht, hres⟩ := h1.1 "t2" 0 rfl
  exact ⟨hc, hr, ht, hres ⟨401, ⟨none, none, none, none⟩, ""⟩ rfl rfl,
    (h2.2 "boom" rfl).2.2⟩

end Firebolt
